import Mathlib

/-!
Verification development for the SATOSA microservice
`idp_metadata_attribute_store.py` (class `IdpMetadataAttributeStore`).

Python dictionaries are embedded as association lists `List (String × α)`
with first-occurrence lookup; `aset` models `d[k] = v` (replace the first
occurrence in place, else append), `aremove` models `d.pop(k)`, and
`dictUpdate` models `d.update(e)`.  Fallible Python code (statements that
can raise) is embedded with `Option` / `Except`: `none` (resp. `.error`)
marks the spot where the corresponding Python statement raises.
-/

set_option autoImplicit false

/-- Lookup of a key in a Python-style dictionary (first occurrence). -/
def alookup {α : Type} : List (String × α) → String → Option α
  | [], _ => none
  | p :: rest, k => if p.1 = k then some p.2 else alookup rest k

/-- Membership test `k in d` of Python. -/
def hasKey {α : Type} (d : List (String × α)) (k : String) : Bool :=
  (alookup d k).isSome

/-- Assignment `d[k] = v` of Python: replace the first binding of `k`,
or append a new binding at the end (Python insertion order). -/
def aset {α : Type} : List (String × α) → String → α → List (String × α)
  | [], k, v => [(k, v)]
  | p :: rest, k, v => if p.1 = k then (k, v) :: rest else p :: aset rest k v

/-- Removal `d.pop(k)` of Python (drops every binding of `k`). -/
def aremove {α : Type} : List (String × α) → String → List (String × α)
  | [], _ => []
  | p :: rest, k => if p.1 = k then aremove rest k else p :: aremove rest k

/-- The method `d.update(e)` of Python dictionaries: write every binding
of `e` into `d`, in order. -/
def dictUpdate {α : Type} (d e : List (String × α)) : List (String × α) :=
  e.foldl (fun acc p => aset acc p.1 p.2) d

/-- A value inside one per-IdP configuration block: either a boolean
(the `ignore` flag) or a nested fact object such as
`{internal_attribute_name: ..., lang: ...}`. -/
inductive CVal where
  | b (x : Bool)
  | obj (m : List (String × String))
deriving DecidableEq, Repr

/-- Python truthiness of a configuration value (`if config['ignore']:`):
a boolean is itself, a dictionary is truthy iff non-empty. -/
def cvalTruthy : CVal → Bool
  | CVal.b x => x
  | CVal.obj m => !m.isEmpty

/-- One per-IdP block of raw configuration: the value under a top-level
key is either a dictionary or some non-dictionary value (which
`__init__` rejects with `isinstance(config[idp], dict)`). -/
inductive RawVal where
  | dict (d : List (String × CVal))
  | nondict
deriving DecidableEq, Repr

/-- Whether a raw configuration value is a dictionary
(`isinstance(config[idp], dict)`). -/
def isDictVal : RawVal → Bool
  | RawVal.dict _ => true
  | RawVal.nondict => false

/-- The class attribute `config_defaults = {'ignore': False}`. -/
def config_defaults : List (String × CVal) := [("ignore", CVal.b false)]

/-- Lines 81-82 of `__init__`: `config['default'] = config.pop("")`,
performed when `"" in config`.  The caller's mapping is mutated in
place; the embedding returns the mutated mapping. -/
def normalizeConfig (config : List (String × RawVal)) : List (String × RawVal) :=
  if hasKey config "" then
    match alookup config "" with
    | some v => aset (aremove config "") "default" v
    | none => config
  else config

/-- The loop of `__init__` over `idp_list`, building `self.config`.
For each key, reject a non-dictionary block, then merge: deep copy of
`config_defaults`, updated with `self.config['default']` when that entry
already exists, updated with the raw block. -/
def initLoop (raw : List (String × RawVal)) :
    List String → List (String × List (String × CVal)) →
    Except Unit (List (String × List (String × CVal)))
  | [], table => Except.ok table
  | idp :: rest, table =>
    match alookup raw idp with
    | some (RawVal.dict d) =>
      let base := config_defaults
      let idpConfig :=
        match alookup table "default" with
        | some dflt => dictUpdate (dictUpdate base dflt) d
        | none => dictUpdate base d
      initLoop raw rest (aset table idp idpConfig)
    | _ => Except.error ()

/-- The constructor `__init__` of `IdpMetadataAttributeStore`.  Returns
the built `self.config` table together with the caller's configuration
mapping as mutated by the empty-key rename; `.error` marks the spot
where the Python code raises `IdpMetadataAttributeStoreError`. -/
def initStore (config : List (String × RawVal)) :
    Except Unit (List (String × List (String × CVal)) × List (String × RawVal)) :=
  if hasKey config "default" && hasKey config "" then Except.error ()
  else
    let config := normalizeConfig config
    if !(hasKey config "default") then Except.error ()
    else
      let idp_list := "default" :: (config.map Prod.fst).filter (fun k => k != "default")
      (initLoop config idp_list []).map (fun table => (table, config))

/-- First loop of `_first_lang_element_text`: return the text of the
first element for which BOTH `lang in e` and `'text' in e` hold.  Note
the source tests `lang in e`, i.e. whether the preferred-language string
is a KEY of the element dictionary. -/
def firstLangPass (elements : List (List (String × String))) (lang : String) :
    Option String :=
  match elements with
  | [] => none
  | e :: rest =>
    if hasKey e lang && hasKey e "text" then alookup e "text"
    else firstLangPass rest lang

/-- Second loop of `_first_lang_element_text`: the text of the first
element that has a `text` key. -/
def firstTextPass : List (List (String × String)) → Option String
  | [] => none
  | e :: rest => if hasKey e "text" then alookup e "text" else firstTextPass rest

/-- The method `_first_lang_element_text(elements, lang)`. -/
def first_lang_element_text (elements : List (List (String × String)))
    (lang : String) : String :=
  match firstLangPass elements lang with
  | some t => t
  | none =>
    match firstTextPass elements with
    | some t => t
    | none => ""

/-- One entry of `extension_elements` in the pysaml2 metadata: a
dictionary that may carry a `__class__` marker (field `elem_class`) and
a `display_name` list of language-tagged elements.  A missing field is
the missing dictionary key (access raises `KeyError`). -/
structure ExtensionElement where
  elem_class : Option String
  display_name : Option (List (List (String × String)))
deriving DecidableEq, Repr

/-- The `extensions` section of an IdP SSO descriptor. -/
structure Extensions where
  extension_elements : Option (List ExtensionElement)
deriving DecidableEq, Repr

/-- One entry of `metadata['idpsso_descriptor']`. -/
structure IdpssoDescriptor where
  extensions : Option Extensions
deriving DecidableEq, Repr

/-- The `organization` section of the metadata record. -/
structure Organization where
  organization_display_name : Option (List (List (String × String)))
  organization_name : Option (List (List (String × String)))
deriving DecidableEq, Repr

/-- The metadata record returned by the pysaml2 `MetadataStore` for one
entity.  Only the parts this microservice reads are modelled; `none`
stands for an absent key, so that the corresponding subscript raises. -/
structure Metadata where
  idpsso_descriptor : Option (List IdpssoDescriptor)
  organization : Option Organization
deriving DecidableEq, Repr

/-- The `__class__` marker of the mdui UIInfo extension element. -/
def uiinfoClass : String := "urn:oasis:names:tc:SAML:metadata:ui&UIInfo"

/-- The loop of `process` over `extension_elements` searching for the
UIInfo element; an element without a `__class__` key raises `KeyError`,
a matching element without `display_name` raises `KeyError`, and
exhausting the list leaves `display_name` unbound (`NameError`); all of
these yield `none` here. -/
def findUIInfoDisplayName : List ExtensionElement →
    Option (List (List (String × String)))
  | [] => none
  | e :: rest =>
    match e.elem_class with
    | none => none
    | some c =>
      if c = uiinfoClass then e.display_name else findUIInfoDisplayName rest

/-- The access path
`metadata['idpsso_descriptor'][0]['extensions']['extension_elements']`
followed by the UIInfo search; `none` at any step is the raised
exception caught by the per-fact handler. -/
def find_display_name_elements (md : Metadata) :
    Option (List (List (String × String))) :=
  match md.idpsso_descriptor with
  | none => none
  | some [] => none
  | some (d :: _) =>
    match d.extensions with
    | none => none
    | some ext =>
      match ext.extension_elements with
      | none => none
      | some els => findUIInfoDisplayName els

/-- The access path `metadata['organization']['organization_display_name']`. -/
def find_organization_display_name (md : Metadata) :
    Option (List (List (String × String))) :=
  match md.organization with
  | none => none
  | some org => org.organization_display_name

/-- The access path `metadata['organization']['organization_name']`. -/
def find_organization_name (md : Metadata) :
    Option (List (List (String × String))) :=
  match md.organization with
  | none => none
  | some org => org.organization_name

/-- The expression `config[fact].get('lang', 'en')`: `none` when the
value under `fact` is not a dictionary (`AttributeError`, raised outside
any try block) or the key is absent. -/
def factLang (config : List (String × CVal)) (fact : String) : Option String :=
  match alookup config fact with
  | some (CVal.obj m) => some ((alookup m "lang").getD "en")
  | _ => none

/-- The expression `config[fact]['internal_attribute_name']`: `none`
when the value under `fact` is not a dictionary or lacks the key. -/
def factAttrName (config : List (String × CVal)) (fact : String) : Option String :=
  match alookup config fact with
  | some (CVal.obj m) => alookup m "internal_attribute_name"
  | _ => none

/-- Lines 174-175 of `process`: when `entity_id` is configured, assign
`data.attributes[config['entity_id']['internal_attribute_name']] =
idp_entity_id`; the subscripts there are outside every try block, so a
malformed fact object raises (`none`). -/
def entityIdStep (config : List (String × CVal)) (idp_entity_id : String)
    (attrs : List (String × String)) : Option (List (String × String)) :=
  if hasKey config "entity_id" then
    match factAttrName config "entity_id" with
    | some name => some (aset attrs name idp_entity_id)
    | none => none
  else some attrs

/-- One metadata-fact block of `process` (the three blocks for
`display_name`, `organization_display_name` and `organization_name` are
identical up to the fact name and the extraction path, here passed as
the already-followed path result `elements`).  The `lang` line sits
outside the try block (`none` on a malformed fact object); everything
else is inside `try ... except Exception`, so an extraction failure or
a missing `internal_attribute_name` skips the fact, and an empty
selected text is not assigned (`if display_name:`). -/
def applyMetadataFact (fact : String)
    (elements : Option (List (List (String × String))))
    (config : List (String × CVal)) (attrs : List (String × String)) :
    Option (List (String × String)) :=
  if hasKey config fact then
    match factLang config fact with
    | none => none
    | some lang =>
      match elements with
      | none => some attrs
      | some els =>
        let v := first_lang_element_text els lang
        if v = "" then some attrs
        else
          match factAttrName config fact with
          | none => some attrs
          | some name => some (aset attrs name v)
  else some attrs

/-- Lines 191-236 of `process`: the three metadata-fact blocks, in
source order. -/
def metaFactsPhase (config : List (String × CVal)) (md : Metadata)
    (attrs : List (String × String)) : Option (List (String × String)) :=
  (applyMetadataFact "display_name" (find_display_name_elements md) config
      attrs).bind
    (fun a1 =>
      (applyMetadataFact "organization_display_name"
          (find_organization_display_name md) config a1).bind
        (fun a2 =>
          applyMetadataFact "organization_name" (find_organization_name md)
            config a2))

/-- Lines 158-161 of `process`: `self.config[idp_entity_id]` when the
key is present, else `self.config['default']` (whose absence would
raise `KeyError`, i.e. `none`). -/
def configLookup (table : List (String × List (String × CVal)))
    (idp : String) : Option (List (String × CVal)) :=
  if hasKey table idp then alookup table idp else alookup table "default"

/-- The request context: the only part `process` reads is the backend
metadata store decoration, modelled as a fallible lookup from entityID
to metadata record (`none` covers both a missing decoration and a
failing `metadata_store[idp_entity_id]` subscript, both caught by the
same handler). -/
structure SatosaContext where
  metadata_store : String → Option Metadata

/-- The per-request data object: `data.to_dict()['auth_info']['issuer']`
(`none` when the `KeyError` path at lines 151-155 fires) and the
mutable attribute bag `data.attributes`. -/
structure InternalData where
  auth_info_issuer : Option String
  attributes : List (String × String)
deriving Repr

/-- The microservice instance: `self.config` built by `__init__`, and
the `self.context` field that `process` writes on every call (line
148). -/
structure IdpMetadataAttributeStore where
  config : List (String × List (String × CVal))
  context : Option SatosaContext

/-- The method `process(self, context, data)`.  The result is the new
instance state paired with the data object handed to
`super().process`; `none` marks an uncaught exception escaping the
method. -/
def process (self : IdpMetadataAttributeStore) (context : SatosaContext)
    (data : InternalData) :
    Option (IdpMetadataAttributeStore × InternalData) :=
  let self1 : IdpMetadataAttributeStore := ⟨self.config, some context⟩
  match data.auth_info_issuer with
  | none => some (self1, data)
  | some idp_entity_id =>
    match configLookup self1.config idp_entity_id with
    | none => none
    | some config =>
      match alookup config "ignore" with
      | none => none
      | some ign =>
        if cvalTruthy ign then some (self1, data)
        else
          match entityIdStep config idp_entity_id data.attributes with
          | none => none
          | some attrs0 =>
            match context.metadata_store idp_entity_id with
            | none => some (self1, ⟨data.auth_info_issuer, attrs0⟩)
            | some metadata =>
              match metaFactsPhase config metadata attrs0 with
              | none => none
              | some attrs1 => some (self1, ⟨data.auth_info_issuer, attrs1⟩)

/-- Left-biased choice on optional values; used to phrase the
key-by-key shallow-merge semantics at the specification level. -/
def firstSome {α : Type} (a b : Option α) : Option α :=
  match a with
  | some v => some v
  | none => b

/-- Whether an `Except` computation succeeded. -/
def exIsOk {ε α : Type} : Except ε α → Bool
  | Except.ok _ => true
  | Except.error _ => false

/-- A raw configuration value is a well-formed dictionary: its keys are
pairwise distinct (true of every Python dictionary). -/
def rawKeysNodup : RawVal → Prop
  | RawVal.dict d => (d.map Prod.fst).Nodup
  | RawVal.nondict => True

instance rawKeysNodupDecidable (v : RawVal) : Decidable (rawKeysNodup v) :=
  match v with
  | RawVal.dict d => inferInstanceAs (Decidable ((d.map Prod.fst).Nodup))
  | RawVal.nondict => inferInstanceAs (Decidable True)

/-- The internal attribute names configured in one effective
configuration block (the only keys of the attribute bag this
microservice ever writes). -/
def configuredNames (config : List (String × CVal)) : List String :=
  (["entity_id", "display_name", "organization_display_name",
    "organization_name"]).filterMap (factAttrName config)

/-- Sample raw configuration: a default block plus one per-IdP override
block. -/
def rawS : List (String × RawVal) :=
  [("default", RawVal.dict
      [("display_name", CVal.obj
          [("internal_attribute_name", "idpdisplayname"), ("lang", "en")]),
       ("entity_id", CVal.obj [("internal_attribute_name", "idpentityid")])]),
   ("https://login.myorg.edu/idp/shibboleth", RawVal.dict
      [("display_name", CVal.obj
          [("internal_attribute_name", "othername"), ("lang", "ja")])])]

/-- The effective configuration table `initStore` builds from `rawS`. -/
def tblS : List (String × List (String × CVal)) :=
  [("default",
    [("ignore", CVal.b false),
     ("display_name", CVal.obj
        [("internal_attribute_name", "idpdisplayname"), ("lang", "en")]),
     ("entity_id", CVal.obj [("internal_attribute_name", "idpentityid")])]),
   ("https://login.myorg.edu/idp/shibboleth",
    [("ignore", CVal.b false),
     ("display_name", CVal.obj
        [("internal_attribute_name", "othername"), ("lang", "ja")]),
     ("entity_id", CVal.obj [("internal_attribute_name", "idpentityid")])])]

/-- Sample raw configuration keyed by the empty string. -/
def rawEmptyKey : List (String × RawVal) :=
  [("", RawVal.dict
      [("entity_id", CVal.obj [("internal_attribute_name", "idpentityid")])])]

/-- Elements of the spec example: an English entry then a Japanese
entry, both carrying text. -/
def elsEnJa : List (List (String × String)) :=
  [[("lang", "en"), ("text", "A")], [("lang", "ja"), ("text", "B")]]

/-- Elements for the fallback scenario: a tag-less entry with text,
then an English entry with text. -/
def elsFallback : List (List (String × String)) :=
  [[("text", "U")], [("lang", "en"), ("text", "T")]]

/-- An effective configuration block with all four facts configured. -/
def cfgAllFacts : List (String × CVal) :=
  [("ignore", CVal.b false),
   ("entity_id", CVal.obj [("internal_attribute_name", "idpentityid")]),
   ("display_name", CVal.obj [("internal_attribute_name", "dn")]),
   ("organization_display_name", CVal.obj [("internal_attribute_name", "odn")]),
   ("organization_name", CVal.obj [("internal_attribute_name", "on")])]

/-- A metadata record whose SSO-descriptor section is missing (so the
display-name extraction raises) while the organization section is
present. -/
def mdNoDescriptor : Metadata :=
  ⟨none,
   some ⟨some [[("lang", "en"), ("text", "Org Disp")]],
         some [[("lang", "en"), ("text", "Org Name")]]⟩⟩

/-- A complete metadata record for the sample IdP. -/
def mdFull : Metadata :=
  ⟨some [⟨some ⟨some [⟨some uiinfoClass,
                       some [[("lang", "en"), ("text", "Example IdP")],
                             [("lang", "ja"), ("text", "Example JA")]]⟩]⟩⟩],
   some ⟨some [[("lang", "en"), ("text", "Org Disp")]],
         some [[("lang", "en"), ("text", "Org Name")]]⟩⟩

/-- A request context whose metadata store has no records. -/
def ctxNoMd : SatosaContext := ⟨fun _ => none⟩

/-- A request context whose metadata store serves `mdFull` for every
entity. -/
def ctxFullMd : SatosaContext := ⟨fun _ => some mdFull⟩

/-- A microservice instance over the sample table, fresh from
initialization (no `context` field written yet). -/
def msS : IdpMetadataAttributeStore := ⟨tblS, none⟩

/-- A request whose issuer is the sample IdP and whose attribute bag
holds one unrelated key. -/
def dataS : InternalData :=
  ⟨some "https://login.myorg.edu/idp/shibboleth", [("unrelated", "keep")]⟩

/-- A request whose issuer cannot be determined. -/
def dataNoIssuer : InternalData := ⟨none, []⟩

/-- The effective configuration block `tblS` assigns to the sample
IdP. -/
def cfgIdpS : List (String × CVal) :=
  [("ignore", CVal.b false),
   ("display_name", CVal.obj
      [("internal_attribute_name", "othername"), ("lang", "ja")]),
   ("entity_id", CVal.obj [("internal_attribute_name", "idpentityid")])]

theorem exIsOk_map {ε α β : Type} (f : α → β) (x : Except ε α) :
    exIsOk (x.map f) = exIsOk x := by
  cases x <;> rfl

theorem alookup_aset_self {α : Type} (d : List (String × α)) (k : String) (v : α) :
    alookup (aset d k v) k = some v := by
  induction d with
  | nil => simp [aset, alookup]
  | cons p rest ih =>
    by_cases h : p.1 = k
    · simp [aset, h, alookup]
    · simp [aset, h, alookup, ih]

theorem alookup_aset_ne {α : Type} (d : List (String × α)) (k k' : String)
    (v : α) (h : k' ≠ k) : alookup (aset d k' v) k = alookup d k := by
  induction d with
  | nil => simp [aset, alookup, h]
  | cons p rest ih =>
    by_cases hp : p.1 = k'
    · simp [aset, hp, alookup, h]
    · simp [aset, hp, alookup, ih]

theorem hasKey_iff_mem_keys {α : Type} (d : List (String × α)) (k : String) :
    hasKey d k = true ↔ k ∈ d.map Prod.fst := by
  induction d with
  | nil => simp [hasKey, alookup]
  | cons p rest ih =>
    by_cases h : p.1 = k
    · simp [hasKey, alookup, h]
    · simp [hasKey, alookup, h, Ne.symm h] at ih ⊢
      exact ih

theorem alookup_eq_none_of_not_mem {α : Type} (d : List (String × α))
    (k : String) (h : k ∉ d.map Prod.fst) : alookup d k = none := by
  have hk : ¬ hasKey d k = true := fun hh => h ((hasKey_iff_mem_keys d k).mp hh)
  simp [hasKey] at hk
  exact hk

theorem keys_aset {α : Type} (d : List (String × α)) (k : String) (v : α) :
    (aset d k v).map Prod.fst =
      if hasKey d k then d.map Prod.fst else d.map Prod.fst ++ [k] := by
  induction d with
  | nil => simp [aset, hasKey, alookup]
  | cons p rest ih =>
    by_cases hp : p.1 = k
    · simp [aset, hp, hasKey, alookup]
    · simp only [aset, if_neg hp, List.map_cons, ih, hasKey, alookup, if_neg hp]
      by_cases hr : (alookup rest k).isSome
      · simp [hr]
      · simp [hr]

theorem nodup_keys_aset {α : Type} (d : List (String × α)) (k : String)
    (v : α) (h : (d.map Prod.fst).Nodup) : ((aset d k v).map Prod.fst).Nodup := by
  rw [keys_aset]
  by_cases hk : hasKey d k
  · simp [hk, h]
  · simp only [hk, if_neg, Bool.false_eq_true, if_false]
    rw [List.nodup_append]
    refine ⟨h, List.nodup_singleton k, ?_⟩
    intro a ha hb
    simp at hb
    subst hb
    exact hk ((hasKey_iff_mem_keys d a).mpr ha)

theorem dictUpdate_cons {α : Type} (d : List (String × α)) (p : String × α)
    (e : List (String × α)) :
    dictUpdate d (p :: e) = dictUpdate (aset d p.1 p.2) e := by
  simp [dictUpdate]

theorem alookup_dictUpdate {α : Type} (e d : List (String × α)) (k : String)
    (h : (e.map Prod.fst).Nodup) :
    alookup (dictUpdate d e) k = firstSome (alookup e k) (alookup d k) := by
  induction e generalizing d with
  | nil => simp [dictUpdate, alookup, firstSome]
  | cons p rest ih =>
    rw [dictUpdate_cons]
    rw [List.map_cons, List.nodup_cons] at h
    rw [ih _ h.2]
    by_cases hp : p.1 = k
    · have hr : alookup rest k = none := by
        apply alookup_eq_none_of_not_mem
        rw [← hp]
        exact h.1
      simp [alookup, hp, hr, firstSome, hp ▸ alookup_aset_self d p.1 p.2]
    · simp [alookup, hp, alookup_aset_ne d k p.1 p.2 hp]

theorem nodup_keys_dictUpdate {α : Type} (e d : List (String × α))
    (h : (d.map Prod.fst).Nodup) : ((dictUpdate d e).map Prod.fst).Nodup := by
  induction e generalizing d with
  | nil => exact h
  | cons p rest ih =>
    rw [dictUpdate_cons]
    exact ih _ (nodup_keys_aset d p.1 p.2 h)

theorem alookup_aremove_self {α : Type} (d : List (String × α)) (k : String) :
    alookup (aremove d k) k = none := by
  induction d with
  | nil => simp [aremove, alookup]
  | cons p rest ih =>
    by_cases h : p.1 = k
    · simpa [aremove, h] using ih
    · simpa [aremove, h, alookup] using ih

theorem firstSome_absorb {α : Type} (a b : Option α) :
    firstSome (firstSome a b) b = firstSome a b := by
  cases a <;> cases b <;> rfl

theorem alookup_aremove_ne {α : Type} (d : List (String × α)) (k k' : String)
    (h : k' ≠ k) : alookup (aremove d k') k = alookup d k := by
  induction d with
  | nil => simp [aremove, alookup]
  | cons p rest ih =>
    by_cases hp : p.1 = k'
    · simpa [aremove, hp, alookup, h] using ih
    · by_cases hk : p.1 = k
      · simp [aremove, hp, alookup, hk, Ne.symm h]
      · simpa [aremove, hp, alookup, hk] using ih

theorem initLoop_stable (raw : List (String × RawVal)) (l : List String)
    (t : List (String × List (String × CVal))) :
    ∀ acc, initLoop raw l acc = Except.ok t →
    ∀ k, k ∉ l → alookup t k = alookup acc k := by
  induction l with
  | nil =>
    intro acc hok k _
    simp [initLoop] at hok
    rw [hok]
  | cons idp rest ih =>
    intro acc hok k hk
    have hk1 : k ∉ rest := fun hh => hk (List.mem_cons_of_mem _ hh)
    have hk2 : k ≠ idp := fun hh => hk (hh ▸ List.mem_cons_self _ _)
    cases hraw : alookup raw idp with
    | none => simp [initLoop, hraw] at hok
    | some v =>
      cases v with
      | nondict => simp [initLoop, hraw] at hok
      | dict d =>
        simp only [initLoop, hraw] at hok
        rw [ih _ hok k hk1]
        exact alookup_aset_ne acc k idp _ (Ne.symm hk2)

theorem initLoop_lookup_mem (raw : List (String × RawVal))
    (dD : List (String × CVal)) (l : List String)
    (t : List (String × List (String × CVal))) :
    ∀ acc, "default" ∉ l → alookup acc "default" = some dD →
    initLoop raw l acc = Except.ok t →
    ∀ k ∈ l, ∃ d, alookup raw k = some (RawVal.dict d) ∧
      alookup t k = some (dictUpdate (dictUpdate config_defaults dD) d) := by
  induction l with
  | nil =>
    intro acc _ _ _ k hk
    exact absurd hk (List.not_mem_nil k)
  | cons idp rest ih =>
    intro acc hdl hacc hok k hk
    have hdl1 : "default" ∉ rest := fun hh => hdl (List.mem_cons_of_mem _ hh)
    have hdl2 : idp ≠ "default" := fun hh => hdl (hh ▸ List.mem_cons_self _ _)
    cases hraw : alookup raw idp with
    | none => simp [initLoop, hraw] at hok
    | some v =>
      cases v with
      | nondict => simp [initLoop, hraw] at hok
      | dict d =>
        simp only [initLoop, hraw, hacc] at hok
        have hacc2 :
            alookup (aset acc idp (dictUpdate (dictUpdate config_defaults dD) d))
              "default" = some dD := by
          rw [alookup_aset_ne acc "default" idp _ hdl2]
          exact hacc
        by_cases hkr : k ∈ rest
        · exact ih _ hdl1 hacc2 hok k hkr
        · have hki : k = idp := by
            rcases List.mem_cons.mp hk with hh | hh
            · exact hh
            · exact absurd hh hkr
          subst hki
          refine ⟨d, hraw, ?_⟩
          rw [initLoop_stable raw rest t _ hok k hkr]
          exact alookup_aset_self acc k _

theorem initLoop_isOk (raw : List (String × RawVal)) (l : List String) :
    ∀ acc, exIsOk (initLoop raw l acc) = true ↔
      ∀ k ∈ l, ∃ d, alookup raw k = some (RawVal.dict d) := by
  induction l with
  | nil =>
    intro acc
    simp [initLoop, exIsOk]
  | cons idp rest ih =>
    intro acc
    cases hraw : alookup raw idp with
    | none => simp [initLoop, hraw, exIsOk, List.forall_mem_cons]
    | some v =>
      cases v with
      | nondict => simp [initLoop, hraw, exIsOk, List.forall_mem_cons]
      | dict d => simp [initLoop, hraw, List.forall_mem_cons, ih]

theorem initStore_ok_destruct (raw : List (String × RawVal))
    (t : List (String × List (String × CVal))) (raw2 : List (String × RawVal))
    (hok : initStore raw = Except.ok (t, raw2)) :
    raw2 = normalizeConfig raw ∧
    initLoop raw2
        ("default" :: (raw2.map Prod.fst).filter (fun k => k != "default")) []
      = Except.ok t := by
  simp only [initStore] at hok
  split at hok
  · exact absurd hok (by simp)
  · split at hok
    · exact absurd hok (by simp)
    · cases hloop : initLoop (normalizeConfig raw)
          ("default" ::
            ((normalizeConfig raw).map Prod.fst).filter (fun k => k != "default"))
          [] with
      | error e =>
        rw [hloop] at hok
        simp [Except.map] at hok
      | ok table =>
        rw [hloop] at hok
        simp [Except.map] at hok
        obtain ⟨h1, h2⟩ := hok
        subst h1
        subst h2
        exact ⟨rfl, hloop⟩

theorem alookup_mem {α : Type} (d : List (String × α)) (k : String) (v : α)
    (h : alookup d k = some v) : (k, v) ∈ d := by
  induction d with
  | nil => simp [alookup] at h
  | cons p rest ih =>
    by_cases hp : p.1 = k
    · simp [alookup, hp] at h
      have hpkv : p = (k, v) := by
        cases p
        simp only at hp h
        rw [hp, h]
      rw [← hpkv]
      exact List.mem_cons_self p rest
    · simp [alookup, hp] at h
      exact List.mem_cons_of_mem _ (ih h)

theorem normalize_id (raw : List (String × RawVal))
    (h : hasKey raw "" = false) : normalizeConfig raw = raw := by
  simp [normalizeConfig, h]

theorem normalize_lookup (raw : List (String × RawVal)) (v0 : RawVal)
    (h0 : alookup raw "" = some v0) :
    alookup (normalizeConfig raw) "default" = some v0
    ∧ alookup (normalizeConfig raw) "" = none
    ∧ ∀ k, k ≠ "" → k ≠ "default" →
        alookup (normalizeConfig raw) k = alookup raw k := by
  have hk : hasKey raw "" = true := by simp [hasKey, h0]
  have hn : normalizeConfig raw = aset (aremove raw "") "default" v0 := by
    simp [normalizeConfig, hk, h0]
  refine ⟨?_, ?_, ?_⟩
  · rw [hn]
    exact alookup_aset_self _ _ _
  · rw [hn]
    rw [alookup_aset_ne _ _ _ _ (by decide)]
    exact alookup_aremove_self raw ""
  · intro k hk1 hk2
    rw [hn]
    rw [alookup_aset_ne _ _ _ _ (Ne.symm hk2)]
    exact alookup_aremove_ne raw k "" (Ne.symm hk1)

/-- C1: the claim says `select([{lang:"en",text:"A"},{lang:"ja",text:"B"}],
"ja")` returns `"B"` (text of the first entry whose language tag equals
the preferred language).  The code instead tests `lang in e`, i.e.
whether the string `"ja"` is a KEY of the element dictionary, so the
first pass never matches and the fallback returns `"A"`. -/
theorem first_lang_element_text_ignores_lang_tag :
    first_lang_element_text elsEnJa "ja" = "A"
    ∧ first_lang_element_text elsEnJa "ja" ≠ "B" := by
  constructor
  · rfl
  · decide

/-- C5: the claim says that when no entry's language tag equals the
preferred language, select falls back to the text of the FIRST entry
carrying text (here `"U"`).  With preferred language `"lang"`, no entry
of `elsFallback` has a language tag equal to `"lang"`, yet the code
returns `"T"`: its first pass fires on the second entry because the
string `"lang"` is one of that entry's dictionary keys. -/
theorem first_lang_element_text_fallback_divergence :
    (∀ e ∈ elsFallback, ¬ alookup e "lang" = some "lang")
    ∧ first_lang_element_text elsFallback "lang" = "T"
    ∧ first_lang_element_text elsFallback "lang" ≠ "U" := by
  refine ⟨by decide, rfl, by decide⟩

/-- C9 counterexample: `process` does NOT leave every field of the
microservice instance unchanged: line 148 (`self.context = context`)
overwrites the `context` field on every invocation.  Concretely, on a
fresh instance the field goes from `none` to holding the request
context. -/
theorem process_mutates_context_field :
    (process msS ctxNoMd dataNoIssuer).map (fun r => r.1.context.isSome)
      = some true
    ∧ msS.context.isSome = false := by
  exact ⟨rfl, rfl⟩

/-- C9 (amended): aside from reading the configuration table, `process`
leaves the `config` field unchanged and touches no instance state other
than the `context` field, which it overwrites with the current
request's context on every invocation. -/
theorem process_state_frame (ms : IdpMetadataAttributeStore)
    (ctx : SatosaContext) (data : InternalData)
    (ms2 : IdpMetadataAttributeStore) (data2 : InternalData)
    (h : process ms ctx data = some (ms2, data2)) :
    ms2.config = ms.config ∧ ms2.context = some ctx := by
  have key : ∀ d : InternalData,
      some ((⟨ms.config, some ctx⟩ : IdpMetadataAttributeStore), d)
        = some (ms2, data2) →
      ms2.config = ms.config ∧ ms2.context = some ctx := by
    intro d hd
    injection hd with hpair
    injection hpair with ha hb
    rw [← ha]
    exact ⟨rfl, rfl⟩
  simp only [process] at h
  split at h
  · exact key _ h
  · split at h
    · simp at h
    · split at h
      · simp at h
      · split at h
        · exact key _ h
        · split at h
          · simp at h
          · split at h
            · exact key _ h
            · split at h
              · simp at h
              · exact key _ h

theorem process_state_frame_witness :
    (⟨tblS, some ctxNoMd⟩ : IdpMetadataAttributeStore).config = msS.config
    ∧ (⟨tblS, some ctxNoMd⟩ : IdpMetadataAttributeStore).context
        = some ctxNoMd :=
  process_state_frame msS ctxNoMd dataNoIssuer ⟨tblS, some ctxNoMd⟩
    dataNoIssuer rfl

/-- C10: when the raw configuration has an empty-string key and no
`default` key, initialization mutates the caller's mapping in place
(lines 81-82): the empty-string key is removed, its value is stored
under `default`, every other key is untouched, and the table is then
built from this mutated mapping. -/
theorem init_renames_empty_key (raw : List (String × RawVal)) (v0 : RawVal)
    (h0 : alookup raw "" = some v0)
    (_h1 : hasKey raw "default" = false) :
    alookup (normalizeConfig raw) "" = none
    ∧ alookup (normalizeConfig raw) "default" = some v0
    ∧ (∀ k, k ≠ "" → k ≠ "default" →
        alookup (normalizeConfig raw) k = alookup raw k)
    ∧ (∀ t raw2, initStore raw = Except.ok (t, raw2) →
        raw2 = normalizeConfig raw) := by
  obtain ⟨a, b, c⟩ := normalize_lookup raw v0 h0
  refine ⟨b, a, c, ?_⟩
  intro t raw2 hok
  exact (initStore_ok_destruct raw t raw2 hok).1

theorem init_renames_empty_key_witness :
    alookup (normalizeConfig rawEmptyKey) "" = none
    ∧ alookup (normalizeConfig rawEmptyKey) "default"
        = some (RawVal.dict
            [("entity_id",
              CVal.obj [("internal_attribute_name", "idpentityid")])]) :=
  ⟨(init_renames_empty_key rawEmptyKey
      (RawVal.dict
        [("entity_id", CVal.obj [("internal_attribute_name", "idpentityid")])])
      (by decide) (by decide)).1,
   (init_renames_empty_key rawEmptyKey
      (RawVal.dict
        [("entity_id", CVal.obj [("internal_attribute_name", "idpentityid")])])
      (by decide) (by decide)).2.1⟩

theorem initStore_default_entry (raw : List (String × RawVal))
    (t : List (String × List (String × CVal))) (raw2 : List (String × RawVal))
    (hok : initStore raw = Except.ok (t, raw2)) :
    ∃ dd, alookup raw2 "default" = some (RawVal.dict dd)
      ∧ alookup t "default" = some (dictUpdate config_defaults dd) := by
  obtain ⟨hraw2, hloop⟩ := initStore_ok_destruct raw t raw2 hok
  cases hdd : alookup raw2 "default" with
  | none => simp [initLoop, hdd] at hloop
  | some v =>
    cases v with
    | nondict => simp [initLoop, hdd] at hloop
    | dict dd =>
      refine ⟨dd, rfl, ?_⟩
      simp only [initLoop, hdd, alookup, aset] at hloop
      have hnd : "default" ∉
          (raw2.map Prod.fst).filter (fun k => k != "default") := by
        intro hm
        have hbne := (List.mem_filter.mp hm).2
        simp at hbne
      rw [initLoop_stable raw2 _ t _ hloop "default" hnd]
      simp [alookup]

/-- C7: request-time resolution (lines 158-161) returns the IdP's own
entry when the identifier is a key of the effective table, the
`default` entry otherwise, and — initialization having succeeded — it
never fails. -/
theorem config_lookup_resolution (raw : List (String × RawVal))
    (t : List (String × List (String × CVal))) (raw2 : List (String × RawVal))
    (hok : initStore raw = Except.ok (t, raw2)) (idp : String) :
    (alookup t idp = none → configLookup t idp = alookup t "default")
    ∧ (∀ c, alookup t idp = some c → configLookup t idp = some c)
    ∧ (configLookup t idp).isSome = true := by
  obtain ⟨dd, hdd, hdefault⟩ := initStore_default_entry raw t raw2 hok
  refine ⟨?_, ?_, ?_⟩
  · intro hnone
    have hk : hasKey t idp = false := by simp [hasKey, hnone]
    simp [configLookup, hk]
  · intro c hc
    have hk : hasKey t idp = true := by simp [hasKey, hc]
    simp [configLookup, hk, hc]
  · by_cases hk : hasKey t idp
    · have hs : (alookup t idp).isSome = true := by simpa [hasKey] using hk
      simp [configLookup, hasKey, hs]
    · simp [configLookup, hk, hdefault]

theorem config_lookup_resolution_witness :
    (configLookup tblS "https://unknown.example.org").isSome = true :=
  (config_lookup_resolution rawS tblS rawS rfl
    "https://unknown.example.org").2.2

theorem forall_alookup_of_forall_mem {α : Type} (P : α → Prop)
    (d : List (String × α)) (h : ∀ p ∈ d, P p.2) :
    ∀ k v, alookup d k = some v → P v :=
  fun k v hv => h _ (alookup_mem d k v hv)

theorem normalize_values (raw : List (String × RawVal))
    (hboth : ¬(hasKey raw "default" = true ∧ hasKey raw "" = true)) :
    (∀ k v, alookup (normalizeConfig raw) k = some v →
        ∃ k2, alookup raw k2 = some v)
    ∧ (∀ k v, alookup raw k = some v →
        ∃ k2, alookup (normalizeConfig raw) k2 = some v) := by
  by_cases h0 : hasKey raw ""
  · obtain ⟨v0, hv0⟩ : ∃ v0, alookup raw "" = some v0 := by
      rcases hh : alookup raw "" with _ | v0
      · rw [hasKey, hh] at h0
        simp at h0
      · exact ⟨v0, rfl⟩
    obtain ⟨hA, hB, hC⟩ := normalize_lookup raw v0 hv0
    have hdef : alookup raw "default" = none := by
      rcases hdd : alookup raw "default" with _ | w
      · rfl
      · exact absurd ⟨by simp [hasKey, hdd], h0⟩ hboth
    constructor
    · intro k v hv
      by_cases hk1 : k = ""
      · rw [hk1, hB] at hv
        exact absurd hv (by simp)
      · by_cases hk2 : k = "default"
        · rw [hk2, hA] at hv
          injection hv with hveq
          exact ⟨"", by rw [hv0, hveq]⟩
        · exact ⟨k, by rw [← hC k hk1 hk2]; exact hv⟩
    · intro k v hv
      by_cases hk1 : k = ""
      · rw [hk1, hv0] at hv
        injection hv with hveq
        exact ⟨"default", by rw [hA, hveq]⟩
      · by_cases hk2 : k = "default"
        · rw [hk2, hdef] at hv
          exact absurd hv (by simp)
        · exact ⟨k, by rw [hC k hk1 hk2]; exact hv⟩
  · have hid : normalizeConfig raw = raw := normalize_id raw (by simpa using h0)
    rw [hid]
    exact ⟨fun k v hv => ⟨k, hv⟩, fun k v hv => ⟨k, hv⟩⟩

theorem loopcond_iff_dictvals (raw : List (String × RawVal))
    (hboth : ¬(hasKey raw "default" = true ∧ hasKey raw "" = true))
    (hdef : hasKey (normalizeConfig raw) "default" = true) :
    (∀ k ∈ ("default" ::
        ((normalizeConfig raw).map Prod.fst).filter (fun k => k != "default")),
        ∃ d, alookup (normalizeConfig raw) k = some (RawVal.dict d))
    ↔ ∀ k v, alookup raw k = some v → isDictVal v = true := by
  obtain ⟨hfwd, hbwd⟩ := normalize_values raw hboth
  constructor
  · intro hloop k v hv
    obtain ⟨k2, hk2⟩ := hbwd k v hv
    have hk2mem : k2 ∈ ("default" ::
        ((normalizeConfig raw).map Prod.fst).filter
          (fun k => k != "default")) := by
      by_cases hd : k2 = "default"
      · rw [hd]
        exact List.mem_cons_self _ _
      · apply List.mem_cons_of_mem
        apply List.mem_filter.mpr
        exact ⟨(hasKey_iff_mem_keys _ k2).mp (by simp [hasKey, hk2]),
               by simpa using hd⟩
    obtain ⟨d, hd2⟩ := hloop k2 hk2mem
    rw [hk2] at hd2
    injection hd2 with hveq
    rw [hveq]
    rfl
  · intro hdict k hk
    rcases List.mem_cons.mp hk with hkd | hkf
    · rw [hkd]
      rcases hh : alookup (normalizeConfig raw) "default" with _ | v
      · rw [hasKey, hh] at hdef
        simp at hdef
      · obtain ⟨k2, hk2⟩ := hfwd "default" v hh
        have hdv := hdict k2 v hk2
        cases v with
        | dict d => exact ⟨d, rfl⟩
        | nondict => simp [isDictVal] at hdv
    · have hmem := (List.mem_filter.mp hkf).1
      have hsome : hasKey (normalizeConfig raw) k = true :=
        (hasKey_iff_mem_keys (normalizeConfig raw) k).mpr hmem
      rcases hh : alookup (normalizeConfig raw) k with _ | v
      · rw [hasKey, hh] at hsome
        simp at hsome
      · obtain ⟨k2, hk2⟩ := hfwd k v hh
        have hdv := hdict k2 v hk2
        cases v with
        | dict d => exact ⟨d, rfl⟩
        | nondict => simp [isDictVal] at hdv

/-- C3: initialization fails exactly when the raw configuration has
both a `default` key and an empty-string key, or neither, or maps some
key to a non-dictionary value; in every other case it succeeds, and a
lone empty-string key ends up renamed to `default` in the mapping. -/
theorem initStore_validation (raw : List (String × RawVal)) :
    (exIsOk (initStore raw) = true ↔
      (¬(hasKey raw "default" = true ∧ hasKey raw "" = true)
        ∧ (hasKey raw "default" = true ∨ hasKey raw "" = true)
        ∧ ∀ k v, alookup raw k = some v → isDictVal v = true))
    ∧ (∀ t raw2, initStore raw = Except.ok (t, raw2) → hasKey raw "" = true →
        hasKey raw2 "default" = true ∧ hasKey raw2 "" = false) := by
  constructor
  · by_cases hboth : hasKey raw "default" && hasKey raw ""
    · have hb : hasKey raw "default" = true ∧ hasKey raw "" = true := by
        simpa using hboth
      have herr : initStore raw = Except.error () := by
        simp [initStore, hboth]
      rw [herr]
      simp only [exIsOk]
      exact ⟨fun h => absurd h (by simp),
             fun hr => absurd ⟨hb.1, hb.2⟩ hr.1⟩
    · have hbothP : ¬(hasKey raw "default" = true ∧ hasKey raw "" = true) := by
        intro hh
        exact hboth (by rw [hh.1, hh.2]; rfl)
      by_cases hdef : hasKey (normalizeConfig raw) "default"
      · have hform : initStore raw =
            (initLoop (normalizeConfig raw)
              ("default" ::
                ((normalizeConfig raw).map Prod.fst).filter
                  (fun k => k != "default")) []).map
              (fun table => (table, normalizeConfig raw)) := by
          simp [initStore, hboth, hdef]
        rw [hform, exIsOk_map, initLoop_isOk,
            loopcond_iff_dictvals raw hbothP hdef]
        have hsecond : hasKey raw "default" = true ∨ hasKey raw "" = true := by
          by_cases h0 : hasKey raw ""
          · right
            exact h0
          · left
            have hid := normalize_id raw (by simpa using h0)
            rw [hid] at hdef
            exact hdef
        exact ⟨fun h => ⟨hbothP, hsecond, h⟩, fun h => h.2.2⟩
      · have hdef2 : hasKey (normalizeConfig raw) "default" = false := by
          simpa using hdef
        have herr : initStore raw = Except.error () := by
          simp [initStore, hboth, hdef2]
        rw [herr]
        simp only [exIsOk]
        constructor
        · intro h
          exact absurd h (by simp)
        · rintro ⟨-, hsecond, -⟩
          rcases hsecond with hd | he
          · by_cases h0 : hasKey raw ""
            · exact absurd ⟨hd, h0⟩ hbothP
            · have hid := normalize_id raw (by simpa using h0)
              rw [hid] at hdef
              exact absurd hd hdef
          · obtain ⟨v0, hv0⟩ : ∃ v0, alookup raw "" = some v0 := by
              rcases hh : alookup raw "" with _ | v0
              · rw [hasKey, hh] at he
                simp at he
              · exact ⟨v0, rfl⟩
            have hA := (normalize_lookup raw v0 hv0).1
            exact absurd (by simp [hasKey, hA]) hdef
  · intro t raw2 hok he
    obtain ⟨hraw2, -⟩ := initStore_ok_destruct raw t raw2 hok
    obtain ⟨v0, hv0⟩ : ∃ v0, alookup raw "" = some v0 := by
      rcases hh : alookup raw "" with _ | v0
      · rw [hasKey, hh] at he
        simp at he
      · exact ⟨v0, rfl⟩
    obtain ⟨hA, hB, -⟩ := normalize_lookup raw v0 hv0
    subst hraw2
    exact ⟨by simp [hasKey, hA], by simp [hasKey, hB]⟩

theorem initStore_validation_witness :
    exIsOk (initStore rawEmptyKey) = true
    ∧ exIsOk (initStore ([] : List (String × RawVal))) = false :=
  ⟨(initStore_validation rawEmptyKey).1.mpr
      ⟨by decide, by decide,
       forall_alookup_of_forall_mem (fun v => isDictVal v = true) rawEmptyKey
         (by decide)⟩,
   by
     have hiff := (initStore_validation ([] : List (String × RawVal))).1
     rcases hh : exIsOk (initStore ([] : List (String × RawVal))) with _ | _
     · rfl
     · obtain ⟨-, hsec, -⟩ := hiff.mp hh
       revert hsec
       decide⟩

/-- C2: for every raw configuration accepted at initialization (all
blocks being well-formed dictionaries) and every IdP key of the
(normalized) mapping, the effective configuration for that key is,
key-by-key, the shallow top-level merge of the baseline
`{ignore: false}`, overlaid by the resolved `default` configuration
(this overlay skipped when resolving `default` itself), overlaid by the
IdP's own raw block; later overlays win per key and nested fact objects
are replaced wholesale, never deep-merged. -/
theorem effective_config_shallow_merge (raw : List (String × RawVal))
    (t : List (String × List (String × CVal))) (raw2 : List (String × RawVal))
    (hok : initStore raw = Except.ok (t, raw2))
    (hN : ∀ p ∈ raw2, rawKeysNodup p.2)
    (idp : String) (blk dd : List (String × CVal))
    (hblk : alookup raw2 idp = some (RawVal.dict blk))
    (hdd : alookup raw2 "default" = some (RawVal.dict dd))
    (k : String) :
    (alookup t idp).bind (fun c => alookup c k) =
      (if idp = "default"
       then firstSome (alookup dd k) (alookup config_defaults k)
       else firstSome (alookup blk k)
              (firstSome (alookup dd k) (alookup config_defaults k))) := by
  obtain ⟨hraw2, hloop⟩ := initStore_ok_destruct raw t raw2 hok
  have hddN : (dd.map Prod.fst).Nodup := by
    have hh := hN _ (alookup_mem raw2 "default" _ hdd)
    simpa [rawKeysNodup] using hh
  have hblkN : (blk.map Prod.fst).Nodup := by
    have hh := hN _ (alookup_mem raw2 idp _ hblk)
    simpa [rawKeysNodup] using hh
  have hcdN : (config_defaults.map Prod.fst).Nodup := by
    simp [config_defaults]
  have hdDN : ((dictUpdate config_defaults dd).map Prod.fst).Nodup :=
    nodup_keys_dictUpdate dd config_defaults hcdN
  simp only [initLoop, hdd, alookup, aset] at hloop
  have hnd : "default" ∉
      (raw2.map Prod.fst).filter (fun k => k != "default") := by
    intro hm
    have hbne := (List.mem_filter.mp hm).2
    simp at hbne
  have haccd : alookup [("default", dictUpdate config_defaults dd)] "default"
      = some (dictUpdate config_defaults dd) := by
    simp [alookup]
  by_cases hid : idp = "default"
  · rw [if_pos hid, hid]
    rw [initLoop_stable raw2 _ t _ hloop "default" hnd, haccd]
    show alookup (dictUpdate config_defaults dd) k = _
    rw [alookup_dictUpdate dd config_defaults k hddN]
  · rw [if_neg hid]
    have hmem : idp ∈ (raw2.map Prod.fst).filter (fun k => k != "default") := by
      apply List.mem_filter.mpr
      exact ⟨(hasKey_iff_mem_keys raw2 idp).mp (by simp [hasKey, hblk]),
             by simpa using hid⟩
    obtain ⟨d, hd1, hd2⟩ :=
      initLoop_lookup_mem raw2 (dictUpdate config_defaults dd) _ t _ hnd haccd
        hloop idp hmem
    rw [hblk] at hd1
    injection hd1 with hd1e
    injection hd1e with hde
    rw [hd2]
    show alookup (dictUpdate (dictUpdate config_defaults
        (dictUpdate config_defaults dd)) d) k = _
    rw [← hde]
    rw [alookup_dictUpdate blk _ k hblkN,
        alookup_dictUpdate (dictUpdate config_defaults dd) _ k hdDN,
        alookup_dictUpdate dd config_defaults k hddN,
        firstSome_absorb]

theorem effective_config_shallow_merge_witness :
    (alookup tblS "https://login.myorg.edu/idp/shibboleth").bind
        (fun c => alookup c "display_name")
      = some (CVal.obj
          [("internal_attribute_name", "othername"), ("lang", "ja")])
    ∧ (alookup tblS "https://login.myorg.edu/idp/shibboleth").bind
        (fun c => alookup c "entity_id")
      = some (CVal.obj [("internal_attribute_name", "idpentityid")]) := by
  constructor
  · have h := effective_config_shallow_merge rawS tblS rawS rfl (by decide)
      "https://login.myorg.edu/idp/shibboleth"
      [("display_name",
        CVal.obj [("internal_attribute_name", "othername"), ("lang", "ja")])]
      [("display_name",
        CVal.obj [("internal_attribute_name", "idpdisplayname"), ("lang", "en")]),
       ("entity_id", CVal.obj [("internal_attribute_name", "idpentityid")])]
      rfl rfl "display_name"
    rw [h]
    rfl
  · have h := effective_config_shallow_merge rawS tblS rawS rfl (by decide)
      "https://login.myorg.edu/idp/shibboleth"
      [("display_name",
        CVal.obj [("internal_attribute_name", "othername"), ("lang", "ja")])]
      [("display_name",
        CVal.obj [("internal_attribute_name", "idpdisplayname"), ("lang", "en")]),
       ("entity_id", CVal.obj [("internal_attribute_name", "idpentityid")])]
      rfl rfl "entity_id"
    rw [h]
    rfl

/-- C4: when the metadata lookup for the issuing IdP fails, `process`
still returns the assertion onward; the attribute bag is exactly the
output of the entity-id step, so the `entity_id` fact (when configured)
is still assigned as `attributes[name] = idp` and no metadata-derived
fact is assigned. -/
theorem process_metadata_failure_keeps_entity_id
    (ms : IdpMetadataAttributeStore) (ctx : SatosaContext)
    (data : InternalData) (idp : String) (config : List (String × CVal))
    (ign : CVal) (attrs0 : List (String × String))
    (h1 : data.auth_info_issuer = some idp)
    (h2 : configLookup ms.config idp = some config)
    (h3 : alookup config "ignore" = some ign)
    (h4 : cvalTruthy ign = false)
    (h5 : ctx.metadata_store idp = none)
    (h6 : entityIdStep config idp data.attributes = some attrs0) :
    process ms ctx data = some (⟨ms.config, some ctx⟩, ⟨some idp, attrs0⟩)
    ∧ (∀ name, hasKey config "entity_id" = true →
        factAttrName config "entity_id" = some name →
        alookup attrs0 name = some idp) := by
  constructor
  · simp only [process, h1, h2, h3, h4, h5, h6]
    rfl
  · intro name hek han
    simp only [entityIdStep, hek, han, if_true] at h6
    injection h6 with he
    rw [← he]
    exact alookup_aset_self _ _ _

theorem process_metadata_failure_keeps_entity_id_witness :
    process msS ctxNoMd dataS
      = some (⟨msS.config, some ctxNoMd⟩,
              ⟨some "https://login.myorg.edu/idp/shibboleth",
               [("unrelated", "keep"),
                ("idpentityid", "https://login.myorg.edu/idp/shibboleth")]⟩)
    ∧ alookup
        [("unrelated", "keep"),
         ("idpentityid", "https://login.myorg.edu/idp/shibboleth")]
        "idpentityid"
      = some "https://login.myorg.edu/idp/shibboleth" := by
  have h := process_metadata_failure_keeps_entity_id msS ctxNoMd dataS
    "https://login.myorg.edu/idp/shibboleth" cfgIdpS (CVal.b false)
    [("unrelated", "keep"),
     ("idpentityid", "https://login.myorg.edu/idp/shibboleth")]
    rfl rfl rfl rfl rfl rfl
  exact ⟨h.1, h.2 "idpentityid" (by decide) (by decide)⟩

theorem option_bind_pure {α : Type} (x : Option α) :
    x.bind (fun a => some a) = x := by
  cases x <;> rfl

theorem applyMetadataFact_isSome (fact : String)
    (els : Option (List (List (String × String))))
    (config : List (String × CVal)) (attrs : List (String × String))
    (h : hasKey config fact = true → (factLang config fact).isSome = true) :
    (applyMetadataFact fact els config attrs).isSome = true := by
  simp only [applyMetadataFact]
  by_cases hk : hasKey config fact
  · rw [if_pos hk]
    rcases hl : factLang config fact with _ | lang
    · have hs := h hk
      rw [hl] at hs
      simp at hs
    · cases els with
      | none => rfl
      | some e =>
        by_cases hv : first_lang_element_text e lang = ""
        · simp [hv]
        · rcases hn : factAttrName config fact with _ | name <;> simp [hv, hn]
  · rw [if_neg hk]
    rfl

theorem applyMetadataFact_none_elements (fact : String)
    (config : List (String × CVal)) (attrs : List (String × String))
    (h : hasKey config fact = true → (factLang config fact).isSome = true) :
    applyMetadataFact fact none config attrs = some attrs := by
  simp only [applyMetadataFact]
  by_cases hk : hasKey config fact
  · rw [if_pos hk]
    rcases hl : factLang config fact with _ | lang
    · have hs := h hk
      rw [hl] at hs
      simp at hs
    · rfl
  · rw [if_neg hk]

/-- C6: a structural failure while extracting one metadata-derived fact
skips only that fact: the metadata phase as a whole never fails (no
exception from metadata shape escapes), and when one fact's extraction
path yields nothing the phase equals the composition of the remaining
two fact steps alone, each still processed independently. -/
theorem metadata_fact_isolation (config : List (String × CVal))
    (md : Metadata) (attrs : List (String × String))
    (h1 : hasKey config "display_name" = true →
      (factLang config "display_name").isSome = true)
    (h2 : hasKey config "organization_display_name" = true →
      (factLang config "organization_display_name").isSome = true)
    (h3 : hasKey config "organization_name" = true →
      (factLang config "organization_name").isSome = true) :
    (metaFactsPhase config md attrs).isSome = true
    ∧ (find_display_name_elements md = none →
        metaFactsPhase config md attrs =
          (applyMetadataFact "organization_display_name"
              (find_organization_display_name md) config attrs).bind
            (applyMetadataFact "organization_name"
              (find_organization_name md) config))
    ∧ (find_organization_display_name md = none →
        metaFactsPhase config md attrs =
          (applyMetadataFact "display_name"
              (find_display_name_elements md) config attrs).bind
            (applyMetadataFact "organization_name"
              (find_organization_name md) config))
    ∧ (find_organization_name md = none →
        metaFactsPhase config md attrs =
          (applyMetadataFact "display_name"
              (find_display_name_elements md) config attrs).bind
            (applyMetadataFact "organization_display_name"
              (find_organization_display_name md) config)) := by
  refine ⟨?_, ?_, ?_, ?_⟩
  · unfold metaFactsPhase
    rcases ha1 : applyMetadataFact "display_name"
        (find_display_name_elements md) config attrs with _ | a1
    · have hs := applyMetadataFact_isSome "display_name"
        (find_display_name_elements md) config attrs h1
      rw [ha1] at hs
      simp at hs
    · rw [Option.some_bind]
      rcases ha2 : applyMetadataFact "organization_display_name"
          (find_organization_display_name md) config a1 with _ | a2
      · have hs := applyMetadataFact_isSome "organization_display_name"
          (find_organization_display_name md) config a1 h2
        rw [ha2] at hs
        simp at hs
      · rw [Option.some_bind]
        exact applyMetadataFact_isSome "organization_name"
          (find_organization_name md) config a2 h3
  · intro hmd
    unfold metaFactsPhase
    rw [hmd, applyMetadataFact_none_elements "display_name" config attrs h1,
        Option.some_bind]
  · intro hmd
    unfold metaFactsPhase
    rw [hmd]
    have hodn : ∀ a, applyMetadataFact "organization_display_name"
        none config a = some a :=
      fun a => applyMetadataFact_none_elements "organization_display_name"
        config a h2
    simp only [hodn, Option.some_bind]
  · intro hmd
    unfold metaFactsPhase
    rw [hmd]
    have hon : ∀ a, applyMetadataFact "organization_name"
        none config a = some a :=
      fun a => applyMetadataFact_none_elements "organization_name"
        config a h3
    simp only [hon, option_bind_pure]

theorem metadata_fact_isolation_witness :
    (metaFactsPhase cfgAllFacts mdNoDescriptor []).isSome = true
    ∧ metaFactsPhase cfgAllFacts mdNoDescriptor [] =
        (applyMetadataFact "organization_display_name"
            (find_organization_display_name mdNoDescriptor) cfgAllFacts []).bind
          (applyMetadataFact "organization_name"
            (find_organization_name mdNoDescriptor) cfgAllFacts) := by
  have h := metadata_fact_isolation cfgAllFacts mdNoDescriptor []
    (fun _ => by decide) (fun _ => by decide) (fun _ => by decide)
  exact ⟨h.1, h.2.1 rfl⟩

theorem lookup_aset_changes {α : Type} (attrs : List (String × α))
    (n : String) (v : α) (k : String) :
    alookup (aset attrs n v) k = alookup attrs k
    ∨ (k = n ∧ (alookup (aset attrs n v) k).isSome = true) := by
  by_cases hk : k = n
  · right
    refine ⟨hk, ?_⟩
    rw [hk, alookup_aset_self]
    rfl
  · left
    exact alookup_aset_ne attrs k n v (fun hh => hk hh.symm)

theorem frame_trans (S : List String) (a b c : List (String × String))
    (hab : ∀ k, alookup b k = alookup a k
      ∨ (k ∈ S ∧ (alookup b k).isSome = true))
    (hbc : ∀ k, alookup c k = alookup b k
      ∨ (k ∈ S ∧ (alookup c k).isSome = true)) :
    ∀ k, alookup c k = alookup a k
      ∨ (k ∈ S ∧ (alookup c k).isSome = true) := by
  intro k
  rcases hbc k with h1 | h1
  · rcases hab k with h2 | h2
    · left
      rw [h1, h2]
    · right
      refine ⟨h2.1, ?_⟩
      rw [h1]
      exact h2.2
  · right
    exact h1

theorem entityIdStep_frame (config : List (String × CVal)) (idp : String)
    (attrs out : List (String × String))
    (h : entityIdStep config idp attrs = some out) :
    ∀ k, alookup out k = alookup attrs k
      ∨ (k ∈ configuredNames config ∧ (alookup out k).isSome = true) := by
  by_cases hk : hasKey config "entity_id"
  · rcases hn : factAttrName config "entity_id" with _ | name
    · simp [entityIdStep, hk, hn] at h
    · simp only [entityIdStep, hk, hn, if_true] at h
      injection h with he
      intro k
      rw [← he]
      rcases lookup_aset_changes attrs name idp k with hc | ⟨hc1, hc2⟩
      · left
        exact hc
      · right
        refine ⟨?_, hc2⟩
        rw [hc1]
        simp only [configuredNames]
        exact List.mem_filterMap.mpr ⟨"entity_id", by simp, hn⟩
  · simp only [entityIdStep, hk] at h
    rw [if_neg (by simp [hk])] at h
    injection h with he
    intro k
    rw [← he]
    left
    rfl

theorem applyMetadataFact_frame (fact : String)
    (els : Option (List (List (String × String))))
    (config : List (String × CVal)) (attrs out : List (String × String))
    (hfact : fact ∈ ["entity_id", "display_name",
      "organization_display_name", "organization_name"])
    (h : applyMetadataFact fact els config attrs = some out) :
    ∀ k, alookup out k = alookup attrs k
      ∨ (k ∈ configuredNames config ∧ (alookup out k).isSome = true) := by
  by_cases hk : hasKey config fact
  · rcases hl : factLang config fact with _ | lang
    · simp [applyMetadataFact, hk, hl] at h
    · cases els with
      | none =>
        simp only [applyMetadataFact, hk, hl, if_true] at h
        injection h with he
        intro k
        rw [← he]
        left
        rfl
      | some e =>
        by_cases hv : first_lang_element_text e lang = ""
        · simp only [applyMetadataFact, hk, hl, if_true] at h
          rw [if_pos hv] at h
          injection h with he
          intro k
          rw [← he]
          left
          rfl
        · rcases hn : factAttrName config fact with _ | name
          · simp only [applyMetadataFact, hk, hl, hn, if_true] at h
            rw [if_neg hv] at h
            injection h with he
            intro k
            rw [← he]
            left
            rfl
          · simp only [applyMetadataFact, hk, hl, hn, if_true] at h
            rw [if_neg hv] at h
            injection h with he
            intro k
            rw [← he]
            rcases lookup_aset_changes attrs name
                (first_lang_element_text e lang) k with hc | ⟨hc1, hc2⟩
            · left
              exact hc
            · right
              refine ⟨?_, hc2⟩
              rw [hc1]
              simp only [configuredNames]
              exact List.mem_filterMap.mpr ⟨fact, hfact, hn⟩
  · simp only [applyMetadataFact, hk] at h
    rw [if_neg (by simp [hk])] at h
    injection h with he
    intro k
    rw [← he]
    left
    rfl

/-- C8: `process` only adds attribute-bag entries: every key whose
binding differs after `process` is one of the configured internal
attribute names of the resolved configuration and ends up bound (never
removed), and a metadata-derived fact whose selected text is empty is
not assigned at all, leaving the bag untouched by that fact. -/
theorem process_only_adds_attributes (ms : IdpMetadataAttributeStore)
    (ctx : SatosaContext) (data : InternalData)
    (ms2 : IdpMetadataAttributeStore) (data2 : InternalData)
    (h : process ms ctx data = some (ms2, data2)) :
    (∀ k, alookup data2.attributes k = alookup data.attributes k
      ∨ ((∃ idp config, data.auth_info_issuer = some idp
            ∧ configLookup ms.config idp = some config
            ∧ k ∈ configuredNames config)
          ∧ (alookup data2.attributes k).isSome = true))
    ∧ (∀ fact els config lang attrs,
        factLang config fact = some lang →
        first_lang_element_text els lang = "" →
        applyMetadataFact fact (some els) config attrs = some attrs) := by
  constructor
  · rcases hi : data.auth_info_issuer with _ | idp
    · have hcalc : process ms ctx data = some (⟨ms.config, some ctx⟩, data) := by
        simp [process, hi]
      rw [hcalc] at h
      injection h with hpair
      injection hpair with _ hdata
      rw [← hdata]
      intro k
      left
      rfl
    · rcases hc : configLookup ms.config idp with _ | config
      · have hcalc : process ms ctx data = none := by
          simp [process, hi, hc]
        rw [hcalc] at h
        exact absurd h (by simp)
      · rcases hg : alookup config "ignore" with _ | ign
        · have hcalc : process ms ctx data = none := by
            simp [process, hi, hc, hg]
          rw [hcalc] at h
          exact absurd h (by simp)
        · by_cases htr : cvalTruthy ign
          · have hcalc : process ms ctx data
                = some (⟨ms.config, some ctx⟩, data) := by
              simp [process, hi, hc, hg, htr]
            rw [hcalc] at h
            injection h with hpair
            injection hpair with _ hdata
            rw [← hdata]
            intro k
            left
            rfl
          · have htr2 : cvalTruthy ign = false := by
              simpa using htr
            rcases he : entityIdStep config idp data.attributes with _ | attrs0
            · have hcalc : process ms ctx data = none := by
                simp [process, hi, hc, hg, htr2, he]
              rw [hcalc] at h
              exact absurd h (by simp)
            · rcases hm : ctx.metadata_store idp with _ | md
              · have hcalc : process ms ctx data
                    = some (⟨ms.config, some ctx⟩, ⟨some idp, attrs0⟩) := by
                  simp [process, hi, hc, hg, htr2, he, hm]
                rw [hcalc] at h
                injection h with hpair
                injection hpair with _ hdata
                rw [← hdata]
                have f0 := entityIdStep_frame config idp data.attributes attrs0 he
                intro k
                rcases f0 k with hfa | ⟨hmem, hsome⟩
                · left
                  exact hfa
                · right
                  exact ⟨⟨idp, config, rfl, hc, hmem⟩, hsome⟩
              · rcases hp : metaFactsPhase config md attrs0 with _ | attrs1
                · have hcalc : process ms ctx data = none := by
                    simp [process, hi, hc, hg, htr2, he, hm, hp]
                  rw [hcalc] at h
                  exact absurd h (by simp)
                · have hcalc : process ms ctx data
                      = some (⟨ms.config, some ctx⟩, ⟨some idp, attrs1⟩) := by
                    simp [process, hi, hc, hg, htr2, he, hm, hp]
                  rw [hcalc] at h
                  injection h with hpair
                  injection hpair with _ hdata
                  rw [← hdata]
                  rcases hp1 : applyMetadataFact "display_name"
                      (find_display_name_elements md) config attrs0 with _ | a1
                  · simp [metaFactsPhase, hp1] at hp
                  · rcases hp2 : applyMetadataFact "organization_display_name"
                        (find_organization_display_name md) config a1 with _ | a2
                    · simp [metaFactsPhase, hp1, hp2] at hp
                    · rcases hp3 : applyMetadataFact "organization_name"
                          (find_organization_name md) config a2 with _ | a3
                      · simp [metaFactsPhase, hp1, hp2, hp3] at hp
                      · have h13 : a3 = attrs1 := by
                          simp [metaFactsPhase, hp1, hp2, hp3] at hp
                          exact hp
                        have f0 := entityIdStep_frame config idp
                          data.attributes attrs0 he
                        have f1 := applyMetadataFact_frame "display_name"
                          (find_display_name_elements md) config attrs0 a1
                          (by simp) hp1
                        have f2 := applyMetadataFact_frame
                          "organization_display_name"
                          (find_organization_display_name md) config a1 a2
                          (by simp) hp2
                        have f3 := applyMetadataFact_frame "organization_name"
                          (find_organization_name md) config a2 a3
                          (by simp) hp3
                        have ftot := frame_trans (configuredNames config)
                          data.attributes a2 a3
                          (frame_trans (configuredNames config)
                            data.attributes a1 a2
                            (frame_trans (configuredNames config)
                              data.attributes attrs0 a1 f0 f1) f2) f3
                        rw [h13] at ftot
                        intro k
                        rcases ftot k with hfa | ⟨hmem, hsome⟩
                        · left
                          exact hfa
                        · right
                          exact ⟨⟨idp, config, rfl, hc, hmem⟩, hsome⟩
  · intro fact els config lang attrs hl hv
    by_cases hk : hasKey config fact
    · simp only [applyMetadataFact, hk, hl, if_true]
      rw [if_pos hv]
    · simp only [applyMetadataFact, hk]
      rw [if_neg (by simp [hk])]

theorem process_only_adds_attributes_witness :
    applyMetadataFact "display_name" (some ([] : List (List (String × String))))
        cfgIdpS [("unrelated", "keep")]
      = some [("unrelated", "keep")] :=
  (process_only_adds_attributes msS ctxFullMd dataS
      ⟨msS.config, some ctxFullMd⟩
      ⟨some "https://login.myorg.edu/idp/shibboleth",
       [("unrelated", "keep"),
        ("idpentityid", "https://login.myorg.edu/idp/shibboleth"),
        ("othername", "Example IdP")]⟩ rfl).2
    "display_name" [] cfgIdpS "ja" [("unrelated", "keep")] rfl rfl
